import Mathlib

/-!
Verification of the qupath-extractor specification against `src/main.py`.

The file models, over `List Nat` byte buffers:
* the segment locator and container parser `parse_qpdata` (from the source),
  including the Python scoping slip on `json_end` (an `UnboundLocalError`
  is modelled as `PyError.unboundLocal`);
* the per-file batch step of `get_qupath_info` (from the source);
* the object-stream decoder.  The source delegates the wire protocol to the
  third-party `javaobj` library, so the decoder here is modelled from the
  spec (section 4.2): magic/version preamble, tag dispatch, handle table,
  class descriptors, strings, arrays, objects, reset, block data;
* the annotation walker `extract_annotations` / `extract_annotation_info`
  (from the source), over a small model of Python runtime values.
-/

/-! ## Byte-buffer search utilities -/

/-- Byte values of an ASCII string literal. -/
def asciiBytes (s : String) : List Nat := s.data.map (fun c => c.toNat)

/-- `pat` occurs in `hay` starting at index `i` (full pattern in bounds). -/
def sublistAt {α : Type} [DecidableEq α] (hay pat : List α) (i : Nat) : Bool :=
  decide ((hay.drop i).take pat.length = pat)

/-- `pat` occurs somewhere in `hay`. -/
def containsSeq {α : Type} [DecidableEq α] (hay pat : List α) : Bool :=
  (List.range (hay.length + 1)).any (fun i => sublistAt hay pat i)

/-- Model of Python `bytes.find(pat, start)`: index of the first occurrence of
`pat` in `data` at an index `≥ start`, `none` when absent. -/
def findSub (data pat : List Nat) (start : Nat) : Option Nat :=
  ((List.range (data.length + 1)).filter
    (fun i => decide (start ≤ i) && sublistAt data pat i)).head?

/-- Big-endian value of a byte list. -/
def beVal (bs : List Nat) : Nat := bs.foldl (fun a b => a * 256 + b) 0

/-! ## Object-stream decoder

Modelled from the spec: the source delegates the serialized-object wire
format to the third-party `javaobj` library, which is not part of this
repository; section 4.2 of the spec describes the protocol (two magic bytes,
a two-byte version, then one-byte tag dispatch over null / reference /
class-descriptor / object / string / array / class / block-data /
end-of-block / reset / exception / proxy-descriptor / enum records,
big-endian lengths, and a sequentially assigned handle table). -/

/-- Decoder error taxonomy from the spec (section 7). -/
inductive ProtocolError where
  | badMagic
  | desync (offset : Nat)
  | resourceLimit
deriving DecidableEq

/-- Field descriptor of a class descriptor. -/
structure FieldDesc where
  typeTag : Nat
  fname : List Nat
  typeName : Option (List Nat)

/-- Class descriptor: name, serialVersionUID, flags, fields, super handle. -/
structure ClassDesc where
  cname : List Nat
  suid : Nat
  flags : Nat
  fieldDescs : List FieldDesc
  superH : Option Nat

/-- A decoded graph node. References are kept symbolic (`ref`), so shared
and cyclic structure is represented through the handle table. -/
inductive GenericValue where
  | null
  | prim (typeTag : Nat) (val : Nat)
  | strV (bytes : List Nat)
  | ref (handle : Nat)
  | arrV (cname : List Nat) (elems : List GenericValue)
  | objV (classHandle : Nat) (fields : List (List Nat × GenericValue))
      (extra : List (List Nat))
  | enumV (cname constName : List Nat)
  | classV (classHandle : Nat)
  | blockV (bytes : List Nat)
  | exceptV (v : GenericValue)

/-- Handle-table entry. -/
inductive HEntry where
  | val (v : GenericValue)
  | desc (d : ClassDesc)
  | placeholder

/-- Decoder state: the whole buffer, a cursor, and the handle table. -/
structure DecState where
  data : List Nat
  pos : Nat
  handles : List HEntry

/-- First handle value assigned in a stream. -/
def handleBase : Nat := 0x7e0000

/-- Assign the next handle to entry `e`. -/
def pushEntry (e : HEntry) (st : DecState) : Nat × DecState :=
  (handleBase + st.handles.length, { st with handles := st.handles ++ [e] })

/-- Patch the entry of handle `h`. -/
def setEntry (h : Nat) (e : HEntry) (st : DecState) : DecState :=
  { st with handles := st.handles.set (h - handleBase) e }

/-- Look a handle up. -/
def getEntry (h : Nat) (st : DecState) : Option HEntry :=
  if handleBase ≤ h then st.handles.get? (h - handleBase) else Option.none

/-- Read `n` bytes; reading past the end of the buffer is a desync whose
offset is the buffer length (the point where the bytes ran out). -/
def readN (n : Nat) (st : DecState) : Except ProtocolError (List Nat × DecState) :=
  if st.pos + n ≤ st.data.length then
    .ok ((st.data.drop st.pos).take n, { st with pos := st.pos + n })
  else .error (.desync st.data.length)

/-- A two-byte big-endian length followed by that many bytes. -/
def readShortStr (st : DecState) : Except ProtocolError (List Nat × DecState) :=
  match readN 2 st with
  | .error e => .error e
  | .ok (lb, st1) => readN (beVal lb) st1

/-- Byte width of a primitive field type tag, `none` for object/array tags. -/
def primWidth (t : Nat) : Option Nat :=
  if t = 0x42 || t = 0x5a then some 1
  else if t = 0x43 || t = 0x53 then some 2
  else if t = 0x46 || t = 0x49 then some 4
  else if t = 0x44 || t = 0x4a then some 8
  else Option.none

/-- A string-valued sub-record of a class descriptor or enum: a new string,
a back-reference to an earlier string handle, or a null marker. -/
def decodeStringRef (st : DecState) : Except ProtocolError (Option (List Nat) × DecState) := do
  let (t, st) ← readN 1 st
  if t = [0x70] then .ok (Option.none, st)
  else if t = [0x74] then do
    let (s, st) ← readShortStr st
    let (_, st) := pushEntry (.val (.strV s)) st
    .ok (some s, st)
  else if t = [0x7c] then do
    let (lb, st) ← readN 8 st
    let (s, st) ← readN (beVal lb) st
    let (_, st) := pushEntry (.val (.strV s)) st
    .ok (some s, st)
  else if t = [0x71] then do
    let (hb, st) ← readN 4 st
    match getEntry (beVal hb) st with
    | some (.val (.strV s)) => .ok (some s, st)
    | _ => .error (.desync st.pos)
  else .error (.desync st.pos)

/-- Block-data region: length-prefixed chunks until the end-of-block marker
(spec, section 4.2: stored verbatim as producer-defined extra data). -/
def blockChunks : Nat → DecState → Except ProtocolError (List (List Nat) × DecState)
  | 0, _ => .error .resourceLimit
  | f + 1, st => do
    let (t, st) ← readN 1 st
    if t = [0x78] then .ok ([], st)
    else if t = [0x77] then do
      let (lb, st) ← readN 1 st
      let (bs, st) ← readN (beVal lb) st
      let (rest, st) ← blockChunks f st
      .ok (bs :: rest, st)
    else if t = [0x7a] then do
      let (lb, st) ← readN 4 st
      let (bs, st) ← readN (beVal lb) st
      let (rest, st) ← blockChunks f st
      .ok (bs :: rest, st)
    else .error (.desync st.pos)

/-- Walk the super chain of a class-descriptor handle (most-derived first). -/
def collectChain : Nat → Nat → DecState → Except ProtocolError (List ClassDesc)
  | 0, _, _ => .error .resourceLimit
  | f + 1, h, st =>
    match getEntry h st with
    | some (.desc d) =>
      match d.superH with
      | Option.none => .ok [d]
      | some h2 => do
        let rest ← collectChain f h2 st
        .ok (d :: rest)
    | _ => .error (.desync st.pos)

/-- Class descriptor: null marker, back-reference, a full descriptor (name,
suid, flags, counted field descriptors, optional write-method block data,
then the recursive super descriptor), or a proxy descriptor.  The handle is
assigned before recursing into the superclass, per the spec's ordering
rule. -/
def decodeClassDesc : Nat → DecState → Except ProtocolError (Option Nat × DecState)
  | 0, _ => .error .resourceLimit
  | f + 1, st => do
    let (t, st) ← readN 1 st
    if t = [0x70] then .ok (Option.none, st)
    else if t = [0x71] then do
      let (hb, st) ← readN 4 st
      match getEntry (beVal hb) st with
      | some (.desc _) => .ok (some (beVal hb), st)
      | _ => .error (.desync st.pos)
    else if t = [0x72] then do
      let (nm, st) ← readShortStr st
      let (suid, st) ← readN 8 st
      let (h, st) := pushEntry .placeholder st
      let (fl, st) ← readN 1 st
      let (nc, st) ← readN 2 st
      let mut fds : List FieldDesc := []
      let mut st1 := st
      for _ in List.range (beVal nc) do
        let (tt, st2) ← readN 1 st1
        let (fn, st2) ← readShortStr st2
        if tt = [0x4c] || tt = [0x5b] then
          let (tn, st3) ← decodeStringRef st2
          fds := fds ++ [⟨tt.headD 0, fn, tn⟩]
          st1 := st3
        else
          fds := fds ++ [⟨tt.headD 0, fn, Option.none⟩]
          st1 := st2
      if beVal fl &&& 1 = 1 then
        let (_, st2) ← blockChunks (st1.data.length + 1) st1
        st1 := st2
      let (sup, st2) ← decodeClassDesc f st1
      let d : ClassDesc := ⟨nm, beVal suid, beVal fl, fds, sup⟩
      .ok (some h, setEntry h (.desc d) st2)
    else if t = [0x7d] then do
      let (nb, st) ← readN 4 st
      let (h, st) := pushEntry .placeholder st
      let mut st1 := st
      for _ in List.range (beVal nb) do
        let (_, st2) ← readShortStr st1
        st1 := st2
      let (sup, st2) ← decodeClassDesc f st1
      .ok (some h, setEntry h (.desc ⟨[], 0, 0, [], sup⟩) st2)
    else .error (.desync st.pos)

/-- One tagged value.  Fuel bounds nesting depth; running out is the spec's
resource-limit error.  Handles for strings, objects, arrays, enums and
classes are assigned before their contents are decoded. -/
def decodeValue : Nat → DecState → Except ProtocolError (GenericValue × DecState)
  | 0, _ => .error .resourceLimit
  | f + 1, st0 =>
    match readN 1 st0 with
    | .error e => .error e
    | .ok (t, st) =>
      if t = [0x70] then .ok (.null, st)
      else if t = [0x74] then
        match readShortStr st with
        | .error e => .error e
        | .ok (s, st1) =>
          let (_, st2) := pushEntry (.val (.strV s)) st1
          .ok (.strV s, st2)
      else if t = [0x7c] then do
        let (lb, st) ← readN 8 st
        let (s, st) ← readN (beVal lb) st
        let (_, st) := pushEntry (.val (.strV s)) st
        .ok (.strV s, st)
      else if t = [0x71] then do
        let (hb, st) ← readN 4 st
        match getEntry (beVal hb) st with
        | some _ => .ok (.ref (beVal hb), st)
        | Option.none => .error (.desync st.pos)
      else if t = [0x73] then do
        let (och, st) ← decodeClassDesc (f + 1) st
        match och with
        | Option.none => .error (.desync st.pos)
        | some ch => do
          let (h, st) := pushEntry .placeholder st
          let chain ← collectChain (st.handles.length + 1) ch st
          let mut fields : List (List Nat × GenericValue) := []
          let mut extras : List (List Nat) := []
          let mut st1 := st
          for cd in chain.reverse do
            for fd in cd.fieldDescs do
              match primWidth fd.typeTag with
              | some w =>
                let (bs, st2) ← readN w st1
                fields := fields ++ [(fd.fname, .prim fd.typeTag (beVal bs))]
                st1 := st2
              | Option.none =>
                let (v, st2) ← decodeValue f st1
                fields := fields ++ [(fd.fname, v)]
                st1 := st2
            if cd.flags &&& 1 = 1 then
              let (chunks, st2) ← blockChunks (st1.data.length + 1) st1
              extras := extras ++ chunks
              st1 := st2
          let v := GenericValue.objV ch fields extras
          .ok (v, setEntry h (.val v) st1)
      else if t = [0x75] then do
        let (och, st) ← decodeClassDesc (f + 1) st
        match och with
        | Option.none => .error (.desync st.pos)
        | some ch => do
          let (h, st) := pushEntry .placeholder st
          let cname ← (match getEntry ch st with
            | some (.desc d) => pure d.cname
            | _ => throw (ProtocolError.desync st.pos))
          let (cb, st) ← readN 4 st
          let comp := cname.getD 1 0
          let mut elems : List GenericValue := []
          let mut st1 := st
          match primWidth comp with
          | some w =>
            for _ in List.range (beVal cb) do
              let (bs, st2) ← readN w st1
              elems := elems ++ [.prim comp (beVal bs)]
              st1 := st2
          | Option.none =>
            if comp = 0x4c || comp = 0x5b then
              for _ in List.range (beVal cb) do
                let (v, st2) ← decodeValue f st1
                elems := elems ++ [v]
                st1 := st2
            else
              throw (ProtocolError.desync st1.pos)
          let v := GenericValue.arrV cname elems
          .ok (v, setEntry h (.val v) st1)
      else if t = [0x7e] then do
        let (och, st) ← decodeClassDesc (f + 1) st
        match och with
        | Option.none => .error (.desync st.pos)
        | some ch => do
          let (h, st) := pushEntry .placeholder st
          let cname ← (match getEntry ch st with
            | some (.desc d) => pure d.cname
            | _ => throw (ProtocolError.desync st.pos))
          let (ocn, st) ← decodeStringRef st
          match ocn with
          | some cn =>
            let v := GenericValue.enumV cname cn
            .ok (v, setEntry h (.val v) st)
          | Option.none => .error (.desync st.pos)
      else if t = [0x76] then do
        let (och, st) ← decodeClassDesc (f + 1) st
        match och with
        | some ch =>
          let (_, st) := pushEntry (.val (.classV ch)) st
          .ok (.classV ch, st)
        | Option.none => .error (.desync st.pos)
      else if t = [0x79] then
        decodeValue f { st with handles := [] }
      else if t = [0x77] then do
        let (lb, st) ← readN 1 st
        let (bs, st) ← readN (beVal lb) st
        .ok (.blockV bs, st)
      else if t = [0x7a] then do
        let (lb, st) ← readN 4 st
        let (bs, st) ← readN (beVal lb) st
        .ok (.blockV bs, st)
      else if t = [0x7b] then do
        let (v, st) ← decodeValue f { st with handles := [] }
        .ok (.exceptV v, { st with handles := [] })
      else .error (.desync st.pos)

/-- Decode a whole stream segment: fixed magic, fixed version, root value. -/
def decodeStream (data : List Nat) : Except ProtocolError GenericValue :=
  match readN 2 ⟨data, 0, []⟩ with
  | .error e => .error e
  | .ok (m, st1) =>
    if m = [0xac, 0xed] then
      match readN 2 st1 with
      | .error e => .error e
      | .ok (v, st2) =>
        if v = [0x00, 0x05] then
          match decodeValue (data.length + 2) st2 with
          | .error e => .error e
          | .ok (g, _) => .ok g
        else .error .badMagic
    else .error .badMagic

/-! ## The container parser `parse_qpdata` (src/main.py, lines 7-64)

The model takes the file bytes plus a boolean for `os.path.exists`, and is
parameterised by the two third-party calls the source makes: `json.loads`
(abstracted to a success predicate on the candidate JSON bytes; text
decoding is left at the byte level) and `javaobj.load` (any decoder of the
remaining bytes; `decodeStream` above is the concrete instance used for
evaluations).  The Python function assigns the local `json_end` only inside
the `if json_start > 0:` block but reads it unconditionally at line 55, so
when the JSON leading-key pattern is absent (or sits at offset 0) the
function raises `UnboundLocalError`; the model returns `PyError.unboundLocal`
on exactly those inputs. -/

/-- Exceptions `parse_qpdata` can raise. -/
inductive PyError where
  | fileNotFound
  | unboundLocal
deriving DecidableEq

/-- The result dictionary of `parse_qpdata`: the four keys it is initialised
with, plus the `metadata_raw` key added when `json.loads` fails. -/
structure QPResult where
  version : Option (List Nat)
  metadata : Option (List Nat)
  metadata_raw : Option (List Nat)
  hierarchy : Option GenericValue
  raw_strings : List (List Nat)

/-- `b'Data file version'` (line 28). -/
def versionHeader : List Nat := asciiBytes "Data file version"

/-- `b'{"dataVersion"'` (line 34). -/
def jsonPattern : List Nat := asciiBytes "\x7b\"dataVersion\""

/-- `b'}sr '` (line 40): closing brace, the bytes `sr`, and a space. -/
def endPattern : List Nat := asciiBytes "\x7dsr "

/-- Lines 28-31: version is `data[19:data.find(b'\x74', 19)]` when the
header prefix is present and the `0x74` sentinel is found, else absent. -/
def extractVersion (data : List Nat) : Option (List Nat) :=
  if sublistAt data versionHeader 0 then
    match findSub data [0x74] 19 with
    | some ve => if 0 < ve then some ((data.drop 19).take (ve - 19)) else Option.none
    | Option.none => Option.none
  else Option.none

/-- A byte the regex class `[\x20-\x7e]` accepts. -/
def isPrintable (b : Nat) : Bool := 0x20 ≤ b && b ≤ 0x7e

/-- Maximal runs of printable bytes, with the run built so far reversed in
the accumulator. -/
def splitRunsAux : List Nat → List Nat → List (List Nat)
  | [], cur => if cur = [] then [] else [cur.reverse]
  | b :: rest, cur =>
    if isPrintable b then splitRunsAux rest (b :: cur)
    else if cur = [] then splitRunsAux rest []
    else cur.reverse :: splitRunsAux rest []

/-- Lines 50-52: `re.findall(b'[\x20-\x7e]{10,}', data)[:30]` — maximal
printable runs of length at least 10, first 30 of them. -/
def rawStrings (data : List Nat) : List (List Nat) :=
  ((splitRunsAux data []).filter (fun r => 10 ≤ r.length)).take 30

/-- `parse_qpdata` (lines 7-64). -/
def parse_qpdata (jsonLoads : List Nat → Bool)
    (javaLoad : List Nat → Except ProtocolError GenericValue)
    (pathExists : Bool) (data : List Nat) : Except PyError QPResult :=
  if pathExists = false then .error .fileNotFound
  else
    let version := extractVersion data
    let rs := rawStrings data
    match findSub data jsonPattern 0 with
    | some js =>
      if 0 < js then
        match findSub data endPattern js with
        | some je0 =>
          let json_end := je0 + 1
          let jsonStr := (data.drop js).take (json_end - js)
          let md := if jsonLoads jsonStr then some jsonStr else Option.none
          let mdr := if jsonLoads jsonStr then Option.none else some (jsonStr.take 500)
          let hierarchy := match javaLoad (data.drop (json_end + 2)) with
            | .ok v => some v
            | .error _ => Option.none
          .ok ⟨version, md, mdr, hierarchy, rs⟩
        | Option.none => .ok ⟨version, Option.none, Option.none, Option.none, rs⟩
      else .error .unboundLocal
    | Option.none => .error .unboundLocal

/-- The fields of one image entry that `get_qupath_info` (lines 176-214)
fills from `parse_qpdata`: per-file `try`/`except` records the error string
of an exception raised by `parse_qpdata` and otherwise stores the
`has_metadata` / `has_hierarchy` summary. -/
structure FileEntry where
  err : Option PyError
  has_metadata : Bool
  has_hierarchy : Bool
deriving DecidableEq

/-- One iteration of the batch loop of `get_qupath_info` for one file. -/
def processFile (jsonLoads : List Nat → Bool)
    (javaLoad : List Nat → Except ProtocolError GenericValue)
    (pathExists : Bool) (data : List Nat) : FileEntry :=
  match parse_qpdata jsonLoads javaLoad pathExists data with
  | .ok r => ⟨Option.none, r.metadata.isSome, r.hierarchy.isSome⟩
  | .error e => ⟨some e, false, false⟩

/-- `json.loads` oracle accepting everything, for concrete evaluations. -/
def jlAny : List Nat → Bool := fun _ => true

/-! ## The annotation walker (src/main.py, lines 66-122)

`extract_annotations` and `extract_annotation_info` run over the Python
objects `javaobj` builds; the model uses a small inductive of Python
runtime values.  Only instances (`PyVal.obj`) have a `__dict__`; attribute
lookup is lookup in that dictionary. -/

/-- A Python runtime value as the walker sees it. -/
inductive PyVal where
  | pyNone
  | num (n : Int)
  | str (s : List Char)
  | list (elems : List PyVal)
  | pydict (items : List (PyVal × PyVal))
  | obj (typeName : List Char) (dict : List (String × PyVal))

mutual

/-- Python `str(value)`.  Renders numbers, strings, containers and objects
deterministically; the exact notation of CPython's `repr` is abstracted but
the function is total and structural, which is all the walker's behaviour
depends on. -/
def pyStr : PyVal → List Char
  | .pyNone => "None".data
  | .num n => (toString n).data
  | .str s => s
  | .list es => '[' :: pyStrJoin es ++ [']']
  | .pydict its => Char.ofNat 0x7b :: pyStrPairs its ++ [Char.ofNat 0x7d]
  | .obj t _ => '<' :: (t ++ " object".data) ++ ['>']

/-- Comma-separated renderings of list elements. -/
def pyStrJoin : List PyVal → List Char
  | [] => []
  | [v] => pyStr v
  | v :: vs => pyStr v ++ (List.cons ',' (' ' :: pyStrJoin vs))

/-- Comma-separated renderings of dict items. -/
def pyStrPairs : List (PyVal × PyVal) → List Char
  | [] => []
  | [(k, v)] => pyStr k ++ (List.cons ':' (' ' :: pyStr v))
  | (k, v) :: kvs => pyStr k ++ (List.cons ':' (' ' :: pyStr v)) ++ (List.cons ',' (' ' :: pyStrPairs kvs))

end

/-- Python `str(type(value))`. -/
def pyTypeStr : PyVal → List Char
  | .pyNone => "<class NoneType>".data
  | .num _ => "<class int>".data
  | .str _ => "<class str>".data
  | .list _ => "<class list>".data
  | .pydict _ => "<class dict>".data
  | .obj t _ => "<class ".data ++ t ++ [Char.ofNat 0x3e]

/-- `hasattr`/attribute access: only instances expose named attributes. -/
def lookupAttr (v : PyVal) (a : String) : Option PyVal :=
  match v with
  | .obj _ d => List.lookup a d
  | _ => Option.none

/-- `for x in v`: the sequence Python iteration yields, `none` when `v` is
not iterable (a `TypeError`). -/
def pyIter : PyVal → Option (List PyVal)
  | .list es => some es
  | .str s => some (s.map (fun c => .str [c]))
  | .pydict its => some (its.map (fun kv => kv.1))
  | _ => Option.none

/-- Case-insensitive substring test: `needle in hay.lower()` with an
already-lowercase needle. -/
def hasSubChars (needle : String) (hay : List Char) : Bool :=
  containsSeq (hay.map Char.toLower) needle.data

/-- Line 119's keyword list: `['name', 'class', 'type', 'roi', 'geometry',
'measurement']`. -/
def keywords : List String :=
  ["name", "class", "type", "roi", "geometry", "measurement"]

/-- Line 119's test: `any(keyword in key.lower() for keyword in ...)`. -/
def keyMatches (k : String) : Bool :=
  keywords.any (fun kw => hasSubChars kw k.data)

/-- Modelled from the spec claim's words, for comparison with `keyMatches`:
the keyword set `name, classification/pathClass, roi/geometry, measurement`,
matched case-insensitively. -/
def specKeywordSet : List String :=
  ["name", "classification", "pathclass", "roi", "geometry", "measurement"]

/-- Modelled from the spec claim's words: a field name matches the claimed
keyword set (case-insensitive, substring reading). -/
def specKeywordMatch (k : String) : Bool :=
  specKeywordSet.any (fun kw => hasSubChars kw k.data)

/-- The record `extract_annotation_info` builds (lines 107-122). -/
structure AnnotationInfo where
  type : List Char
  attributes : List (String × List Char)

/-- `extract_annotation_info` (lines 107-122): keeps a `__dict__` entry as
an attribute exactly when its key passes `keyMatches`, storing
`str(value)[:200]`. -/
def extract_annotation_info (ann : PyVal) : AnnotationInfo :=
  { type := pyTypeStr ann
  , attributes :=
      match ann with
      | .obj _ d =>
        (d.filter (fun kv => keyMatches kv.1)).map
          (fun kv => (kv.1, (pyStr kv.2).take 200))
      | _ => [] }

/-- Lines 80-93: the `annotations`-attribute branch, else the `__dict__`
scan for keys containing `pathobject`/`annotation`.  The boolean reports an
exception having escaped the accumulated records (caught at line 101). -/
def part1 (v : PyVal) : List AnnotationInfo × Bool :=
  match lookupAttr v "annotations" with
  | some anns =>
    match pyIter anns with
    | some items => (items.map extract_annotation_info, false)
    | Option.none => ([], true)
  | Option.none =>
    match v with
    | .obj _ d =>
      ((d.filter (fun kv =>
          hasSubChars "pathobject" kv.1.data || hasSubChars "annotation" kv.1.data)).flatMap
        (fun kv =>
          match kv.2 with
          | .list items => items.map extract_annotation_info
          | w => [extract_annotation_info w]), false)
    | _ => ([], false)

/-- Lines 96-99: the `map`-attribute scan; `.items()` on a non-dict raises. -/
def part2 (v : PyVal) (acc : List AnnotationInfo) : List AnnotationInfo × Bool :=
  match lookupAttr v "map" with
  | some m =>
    match m with
    | .pydict its =>
      (acc ++ (its.filter (fun kv => hasSubChars "annotation" (pyStr kv.1))).map
        (fun kv => extract_annotation_info kv.2), false)
    | _ => (acc, true)
  | Option.none => (acc, false)

/-- The `try` body of `extract_annotations`: an exception in the first part
skips the second. -/
def extractBody (v : PyVal) : List AnnotationInfo × Bool :=
  match part1 v with
  | (acc, true) => (acc, true)
  | (acc, false) => part2 v acc

/-- `extract_annotations` (lines 66-104): `None` yields `[]`; the
`except Exception` handler (lines 101-102) turns any exception into a
print, so the records accumulated before it are returned either way. -/
def extract_annotations (v : PyVal) : List AnnotationInfo :=
  match v with
  | .pyNone => []
  | _ => (extractBody v).1

/-! ## Helper lemmas -/

theorem readN_ok_of (n : Nat) (st : DecState) (h : st.pos + n ≤ st.data.length) :
    readN n st = .ok ((st.data.drop st.pos).take n, ⟨st.data, st.pos + n, st.handles⟩) := by
  unfold readN
  rw [if_pos h]

theorem readN_err_of (n : Nat) (st : DecState) (h : st.data.length < st.pos + n) :
    readN n st = .error (.desync st.data.length) := by
  unfold readN
  rw [if_neg (by omega)]

theorem beVal_pair (hi lo : Nat) : beVal [hi, lo] = hi * 256 + lo := by
  simp [beVal, List.foldl]

/-- A declared two-byte string length larger than the rest of the buffer
makes `readShortStr` desync at the buffer end. -/
theorem readShortStr_overflow (st : DecState) (hi lo : Nat)
    (h1 : st.pos + 2 ≤ st.data.length)
    (h2 : (st.data.drop st.pos).take 2 = [hi, lo])
    (h3 : st.data.length < st.pos + 2 + (hi * 256 + lo)) :
    readShortStr st = .error (.desync st.data.length) := by
  unfold readShortStr
  rw [readN_ok_of 2 st h1, h2]
  show readN (beVal [hi, lo]) ⟨st.data, st.pos + 2, st.handles⟩ = _
  rw [beVal_pair]
  exact readN_err_of _ _ (by simpa using h3)

/-- When the cursor sits on a string tag whose `readShortStr` fails, the
whole `decodeValue` fails the same way. -/
theorem decodeValue_string_err (f : Nat) (st0 : DecState) (e : ProtocolError)
    (h1 : st0.pos + 1 ≤ st0.data.length)
    (h2 : (st0.data.drop st0.pos).take 1 = [0x74])
    (h3 : readShortStr ⟨st0.data, st0.pos + 1, st0.handles⟩ = .error e) :
    decodeValue (f + 1) st0 = .error e := by
  rw [decodeValue, readN_ok_of 1 st0 h1, h2]
  simp [h3]

/-! ## Claim theorems -/

/-- C1: the code contradicts the claim.  When the JSON leading-key pattern
is absent (empty file), `parse_qpdata` does not record the JSON as absent
and decode the stream — it raises `UnboundLocalError` on the unassigned
`json_end` local (line 55), aborting the parse. -/
theorem c1_missing_json_crashes :
    findSub [] jsonPattern 0 = Option.none ∧
    parse_qpdata jlAny decodeStream true [] = .error PyError.unboundLocal :=
  ⟨rfl, rfl⟩

/-- C2: the code contradicts the claim.  On a file that does not start with
the version-header literal (and, like any non-qpdata file, lacks the JSON
pattern), parsing does fail: the same `UnboundLocalError` on `json_end`
is raised, instead of proceeding with `version = None`. -/
theorem c2_no_header_still_crashes :
    sublistAt (asciiBytes "hello, not a qpdata file at all") versionHeader 0 = false ∧
    parse_qpdata jlAny decodeStream true (asciiBytes "hello, not a qpdata file at all") =
      .error PyError.unboundLocal :=
  ⟨rfl, rfl⟩

/-- C10: the code contradicts the claim's second half.  A missing path
raises file-not-found, but an existing file whose bytes lack the JSON
pattern makes the parse raise `UnboundLocalError` instead of returning the
four-key result record. -/
theorem c10_exists_but_crashes :
    parse_qpdata jlAny decodeStream false (versionHeader ++ asciiBytes " 2.0junk") =
      .error PyError.fileNotFound ∧
    parse_qpdata jlAny decodeStream true (versionHeader ++ asciiBytes " 2.0junk") =
      .error PyError.unboundLocal ∧
    PyError.unboundLocal ≠ PyError.fileNotFound :=
  ⟨rfl, rfl, by decide⟩

/-- C7: decoding a byte buffer is deterministic — two decodes of the same
buffer produce the same result, hence structurally identical graphs. -/
theorem c7_decode_deterministic (data : List Nat)
    (r1 r2 : Except ProtocolError GenericValue)
    (h1 : decodeStream data = r1) (h2 : decodeStream data = r2) : r1 = r2 := by
  rw [← h1, ← h2]

/-- Witness for C7 at a concrete one-string stream. -/
theorem c7_witness :
    (Except.ok (GenericValue.strV [0x68, 0x69]) : Except ProtocolError GenericValue) =
      Except.ok (GenericValue.strV [0x68, 0x69]) :=
  c7_decode_deterministic [0xac, 0xed, 0x00, 0x05, 0x74, 0x00, 0x02, 0x68, 0x69] _ _ rfl rfl

/-- C8: a truncated stream (magic alone, or magic plus version, then EOF)
desyncs with offset equal to the buffer length, and a two-byte string
length field exceeding the remaining buffer desyncs at the buffer end
instead of silently truncating. -/
theorem c8_truncation_desync :
    decodeStream [0xac, 0xed] = .error (.desync 2) ∧
    decodeStream [0xac, 0xed, 0x00, 0x05] = .error (.desync 4) ∧
    ∀ hi lo body, body.length < hi * 256 + lo →
      decodeStream (0xac :: 0xed :: 0x00 :: 0x05 :: 0x74 :: hi :: lo :: body) =
        .error (.desync (body.length + 7)) := by
  refine ⟨rfl, rfl, ?_⟩
  intro hi lo body h
  have hlen : (0xac :: 0xed :: 0x00 :: 0x05 :: 0x74 :: hi :: lo :: body).length =
      body.length + 7 := by simp
  have hdv : decodeValue ((body.length + 8) + 1)
      ⟨0xac :: 0xed :: 0x00 :: 0x05 :: 0x74 :: hi :: lo :: body, 4, []⟩ =
      .error (.desync (body.length + 7)) := by
    apply decodeValue_string_err
    · simp
    · rfl
    · have hov := readShortStr_overflow
        ⟨0xac :: 0xed :: 0x00 :: 0x05 :: 0x74 :: hi :: lo :: body, 5, []⟩ hi lo
        (by simp) rfl (by simp; omega)
      simpa [hlen] using hov
  unfold decodeStream
  rw [readN_ok_of 2 _ (by simp)]
  show (if ([0xac, 0xed] : List Nat) = [0xac, 0xed] then _ else _) = _
  rw [if_pos rfl]
  rw [readN_ok_of 2 _ (by simp)]
  show (if ([0x00, 0x05] : List Nat) = [0x00, 0x05] then _ else _) = _
  rw [if_pos rfl]
  have hf : (0xac :: 0xed :: 0x00 :: 0x05 :: 0x74 :: hi :: lo :: body).length + 2 =
      (body.length + 8) + 1 := by simp
  rw [hf]
  simp only [show (0 + 2 + 2 : Nat) = 4 from rfl]
  rw [hdv]

/-- Shared computation: the shape of `parse_qpdata`'s result once the JSON
pattern is found at a positive offset and the `}sr ` end pattern is found
after it. -/
theorem parse_qpdata_found (jl : List Nat → Bool)
    (jv : List Nat → Except ProtocolError GenericValue)
    (data : List Nat) (js je0 : Nat)
    (h1 : findSub data jsonPattern 0 = some js) (h2 : 0 < js)
    (h3 : findSub data endPattern js = some je0) :
    parse_qpdata jl jv true data = .ok
      ⟨extractVersion data,
       (if jl ((data.drop js).take (je0 + 1 - js)) then
          some ((data.drop js).take (je0 + 1 - js)) else Option.none),
       (if jl ((data.drop js).take (je0 + 1 - js)) then Option.none else
          some (((data.drop js).take (je0 + 1 - js)).take 500)),
       (match jv (data.drop (je0 + 3)) with
        | .ok v => some v
        | .error _ => Option.none),
       rawStrings data⟩ := by
  unfold parse_qpdata
  rw [h1]
  simp only [h3, if_pos h2]
  rfl

/-- C3, counterexample: a buffer in which the closing brace IS immediately
followed by the two-byte marker `sr`, yet the code finds no JSON end (its
pattern demands a fourth byte, a space) — no metadata is extracted and no
stream decode is attempted, contrary to the claimed boundary rule. -/
theorem c3_cex :
    findSub (asciiBytes "A\x7b\"dataVersion\"x\x7dsr" ++ [0xac, 0xed, 0x00, 0x05, 0x70])
      (asciiBytes "\x7dsr") 1 = some 16 ∧
    findSub (asciiBytes "A\x7b\"dataVersion\"x\x7dsr" ++ [0xac, 0xed, 0x00, 0x05, 0x70])
      jsonPattern 0 = some 1 ∧
    findSub (asciiBytes "A\x7b\"dataVersion\"x\x7dsr" ++ [0xac, 0xed, 0x00, 0x05, 0x70])
      endPattern 1 = Option.none ∧
    parse_qpdata jlAny decodeStream true
      (asciiBytes "A\x7b\"dataVersion\"x\x7dsr" ++ [0xac, 0xed, 0x00, 0x05, 0x70]) =
      .ok ⟨Option.none, Option.none, Option.none, Option.none,
        rawStrings (asciiBytes "A\x7b\"dataVersion\"x\x7dsr" ++ [0xac, 0xed, 0x00, 0x05, 0x70])⟩ :=
  ⟨rfl, rfl, rfl, rfl⟩

/-- C3, amended: the JSON segment ends just after the closing brace of the
first occurrence, at or after the JSON start, of the four-byte pattern
`}` `s` `r` space; the object-stream decode then begins three bytes after
that closing brace (immediately after the `sr` marker, on the space). -/
theorem c3_amended_thm (jl : List Nat → Bool)
    (jv : List Nat → Except ProtocolError GenericValue)
    (data : List Nat) (js je0 : Nat)
    (h1 : findSub data jsonPattern 0 = some js) (h2 : 0 < js)
    (h3 : findSub data endPattern js = some je0) :
    ∃ r, parse_qpdata jl jv true data = .ok r ∧
      r.hierarchy = (match jv (data.drop (je0 + 3)) with
        | .ok v => some v
        | .error _ => Option.none) ∧
      (jl ((data.drop js).take (je0 + 1 - js)) = true →
        r.metadata = some ((data.drop js).take (je0 + 1 - js))) := by
  refine ⟨_, parse_qpdata_found jl jv data js je0 h1 h2 h3, rfl, ?_⟩
  intro hjl
  simp [hjl]

/-- Witness for C3's amended theorem at a concrete container. -/
theorem c3_amended_witness :
    ∃ r, parse_qpdata jlAny decodeStream true
        (asciiBytes "A\x7b\"dataVersion\"\x7dsr " ++ [0xac, 0xed, 0x00, 0x05, 0x70]) = .ok r ∧
      r.hierarchy = (match decodeStream
          ((asciiBytes "A\x7b\"dataVersion\"\x7dsr " ++ [0xac, 0xed, 0x00, 0x05, 0x70]).drop (15 + 3)) with
        | .ok v => some v
        | .error _ => Option.none) ∧
      (jlAny (((asciiBytes "A\x7b\"dataVersion\"\x7dsr " ++ [0xac, 0xed, 0x00, 0x05, 0x70]).drop 1).take (15 + 1 - 1)) = true →
        r.metadata = some (((asciiBytes "A\x7b\"dataVersion\"\x7dsr " ++ [0xac, 0xed, 0x00, 0x05, 0x70]).drop 1).take (15 + 1 - 1))) :=
  c3_amended_thm jlAny decodeStream _ 1 15 rfl (by decide) rfl

/-- C4, counterexample: a container whose stream decode fails, yet the
per-file batch entry records no error and the result silently carries
`hierarchy = None` — the failure is swallowed by the bare `except` at
line 61-62, not surfaced as a typed error. -/
theorem c4_cex :
    decodeStream ((asciiBytes "B\x7b\"dataVersion\"\x7dsr junk").drop 18) =
      .error ProtocolError.badMagic ∧
    processFile jlAny decodeStream true (asciiBytes "B\x7b\"dataVersion\"\x7dsr junk") =
      ⟨Option.none, true, false⟩ :=
  ⟨rfl, rfl⟩

/-- C4, amended: a stream-decode failure is caught and silently discarded
inside `parse_qpdata`: the file's hierarchy is recorded absent, the parse
still succeeds, and the batch entry records no error string for it (only
exceptions escaping `parse_qpdata` itself are recorded per file). -/
theorem c4_amended_thm (jl : List Nat → Bool)
    (jv : List Nat → Except ProtocolError GenericValue)
    (data : List Nat) (js je0 : Nat) (e : ProtocolError)
    (h1 : findSub data jsonPattern 0 = some js) (h2 : 0 < js)
    (h3 : findSub data endPattern js = some je0)
    (h4 : jv (data.drop (je0 + 3)) = .error e) :
    (∃ r, parse_qpdata jl jv true data = .ok r ∧ r.hierarchy = Option.none) ∧
    (processFile jl jv true data).err = Option.none := by
  constructor
  · refine ⟨_, parse_qpdata_found jl jv data js je0 h1 h2 h3, ?_⟩
    simp [h4]
  · unfold processFile
    rw [parse_qpdata_found jl jv data js je0 h1 h2 h3]

/-- Witness for C4's amended theorem at a concrete container. -/
theorem c4_amended_witness :
    (∃ r, parse_qpdata jlAny decodeStream true
        (asciiBytes "B\x7b\"dataVersion\"\x7dsr junk") = .ok r ∧
      r.hierarchy = Option.none) ∧
    (processFile jlAny decodeStream true
        (asciiBytes "B\x7b\"dataVersion\"\x7dsr junk")).err = Option.none :=
  c4_amended_thm jlAny decodeStream _ 1 15 ProtocolError.badMagic rfl (by decide) rfl rfl

/-- Witness for C8's overlength-string conjunct at a concrete input. -/
theorem c8_witness :
    (3 < 0 * 256 + 5) ∧
    decodeStream [0xac, 0xed, 0x00, 0x05, 0x74, 0x00, 0x05, 0x61, 0x62, 0x63] =
      .error (.desync 10) :=
  ⟨by decide, c8_truncation_desync.2.2 0 5 [0x61, 0x62, 0x63] (by decide)⟩

/-- C5: walking an `annotations` list emits one record per element (records
are appended in order, none dropped, whatever further records the `map`
scan appends), and a node none of whose fields passes the keyword test
still yields a record — with empty attributes — rather than being dropped.
The `except Exception` handler makes the walker total on every input. -/
theorem c5_thm (v anns : PyVal) (items : List PyVal)
    (t : List Char) (d : List (String × PyVal))
    (h1 : lookupAttr v "annotations" = some anns)
    (h2 : pyIter anns = some items)
    (h3 : ∀ kv ∈ d, keyMatches kv.1 = false) :
    (∃ rest, extract_annotations v = items.map extract_annotation_info ++ rest) ∧
    (extract_annotation_info (PyVal.obj t d)).attributes = [] := by
  constructor
  · have hv : ∃ tn dn, v = PyVal.obj tn dn := by
      cases v <;> simp [lookupAttr] at h1
      exact ⟨_, _, rfl⟩
    obtain ⟨tn, dn, rfl⟩ := hv
    have hb : part1 (PyVal.obj tn dn) = (items.map extract_annotation_info, false) := by
      simp [part1, h1, h2]
    have he : extract_annotations (PyVal.obj tn dn) =
        (part2 (PyVal.obj tn dn) (items.map extract_annotation_info)).1 := by
      simp [extract_annotations, extractBody, hb]
    rw [he]
    unfold part2
    cases hm : lookupAttr (PyVal.obj tn dn) "map" with
    | none => exact ⟨[], by simp⟩
    | some m =>
      cases m with
      | pydict its => exact ⟨_, rfl⟩
      | pyNone => exact ⟨[], by simp⟩
      | num n => exact ⟨[], by simp⟩
      | str s => exact ⟨[], by simp⟩
      | list es => exact ⟨[], by simp⟩
      | obj t2 d2 => exact ⟨[], by simp⟩
  · simp only [extract_annotation_info]
    have : d.filter (fun kv => keyMatches kv.1) = [] := by
      rw [List.filter_eq_nil_iff]
      intro kv hkv
      simp [h3 kv hkv]
    rw [this]
    rfl

/-- Witness for C5 at a concrete hierarchy object. -/
theorem c5_witness :
    (∃ rest, extract_annotations
        (PyVal.obj "H".data [("annotations", PyVal.list [PyVal.obj "A".data []])]) =
      [PyVal.obj "A".data []].map extract_annotation_info ++ rest) ∧
    (extract_annotation_info (PyVal.obj "B".data [("foo", PyVal.num 1)])).attributes = [] :=
  c5_thm _ _ _ "B".data _ rfl rfl (by decide)

/-- C6, counterexample: the field name `type` is kept as an attribute by
the code (it is in line 119's keyword list), but it does not match the
claim's keyword set (name, classification/pathClass, roi/geometry,
measurement) — so "kept exactly when the name matches that set" is false. -/
theorem c6_cex :
    (extract_annotation_info (PyVal.obj "X".data [("type", PyVal.num 3)])).attributes.map
      Prod.fst = ["type"] ∧
    specKeywordMatch "type" = false ∧
    keyMatches "type" = true := by
  refine ⟨?_, by decide, by decide⟩
  simp [extract_annotation_info, show keyMatches "type" = true from by decide]

/-- C6, amended: a `__dict__` entry is kept as an attribute exactly when
its key passes the code's test — the lowercased key contains one of the
substrings `name`, `class`, `type`, `roi`, `geometry`, `measurement` — and
that test is case-insensitive: it depends only on the lowercased key. -/
theorem c6_amended_thm (t : List Char) (d : List (String × PyVal)) (k : String) :
    ((∃ s, (k, s) ∈ (extract_annotation_info (PyVal.obj t d)).attributes) ↔
      (keyMatches k = true ∧ ∃ w, (k, w) ∈ d)) ∧
    (∀ k2 : String, k.data.map Char.toLower = k2.data.map Char.toLower →
      keyMatches k = keyMatches k2) := by
  constructor
  · constructor
    · rintro ⟨s, hs⟩
      simp only [extract_annotation_info, List.mem_map, List.mem_filter] at hs
      obtain ⟨kv, ⟨hkd, hkm⟩, heq⟩ := hs
      rw [Prod.mk.injEq] at heq
      obtain ⟨hk1, -⟩ := heq
      subst hk1
      exact ⟨hkm, kv.2, hkd⟩
    · rintro ⟨hk, w, hw⟩
      refine ⟨(pyStr w).take 200, ?_⟩
      simp only [extract_annotation_info, List.mem_map, List.mem_filter]
      exact ⟨(k, w), ⟨hw, hk⟩, rfl⟩
  · intro k2 h
    simp only [keyMatches, hasSubChars]
    rw [h]

/-- Witness for C6's amended theorem: case-insensitivity at `pathClass`
versus `PATHCLASS`, and a kept `name` attribute. -/
theorem c6_amended_witness :
    keyMatches "pathClass" = keyMatches "PATHCLASS" ∧
    (∃ s, ("name", s) ∈
      (extract_annotation_info (PyVal.obj "X".data [("name", PyVal.num 1)])).attributes) :=
  ⟨(c6_amended_thm "X".data [("name", PyVal.num 1)] "pathClass").2 "PATHCLASS" (by decide),
   (c6_amended_thm "X".data [("name", PyVal.num 1)] "name").1.mpr
     ⟨by decide, PyVal.num 1, List.mem_singleton.mpr rfl⟩⟩

/-- C9: every attribute value an annotation record stores is the string
rendering truncated with `[:200]`, so its length never exceeds 200. -/
theorem c9_thm (v : PyVal) (k : String) (s : List Char)
    (h : (k, s) ∈ (extract_annotation_info v).attributes) : s.length ≤ 200 := by
  cases v with
  | obj t d =>
    simp only [extract_annotation_info, List.mem_map, List.mem_filter] at h
    obtain ⟨kv, -, heq⟩ := h
    rw [Prod.mk.injEq] at heq
    obtain ⟨-, hs⟩ := heq
    rw [← hs, List.length_take]
    omega
  | pyNone => simp [extract_annotation_info] at h
  | num n => simp [extract_annotation_info] at h
  | str s2 => simp [extract_annotation_info] at h
  | list es => simp [extract_annotation_info] at h
  | pydict its => simp [extract_annotation_info] at h

/-- Witness for C9 at a concrete annotation object. -/
theorem c9_witness :
    ("name", (pyStr (PyVal.num 5)).take 200) ∈
      (extract_annotation_info (PyVal.obj "X".data [("name", PyVal.num 5)])).attributes ∧
    ((pyStr (PyVal.num 5)).take 200).length ≤ 200 := by
  have hmem : ("name", (pyStr (PyVal.num 5)).take 200) ∈
      (extract_annotation_info (PyVal.obj "X".data [("name", PyVal.num 5)])).attributes := by
    simp only [extract_annotation_info, List.mem_map, List.mem_filter]
    exact ⟨("name", PyVal.num 5),
      ⟨List.mem_singleton.mpr rfl, by decide⟩, rfl⟩
  exact ⟨hmem, c9_thm (PyVal.obj "X".data [("name", PyVal.num 5)]) "name" _ hmem⟩

